import Mathlib

/-!
Verification of the SAE inference microservice
(`scripts/sae_inference_service.py`).

The service is a mock sparse-autoencoder (SAE) inference engine with three
operations: `encode_text` (per-token sparse activation report),
`get_feature_info` (feature metadata lookup, with range validation in the
`get_feature` handler), and `search_features` (randomly sampled, relevance
ranked feature search).

Randomness in the Python code (`np.random.exponential`, `np.random.beta`,
`np.random.randint`) is modelled by passing the drawn values in explicitly:
each operation takes its stream of random draws as an argument, and every
theorem quantifies over all possible draws.  Real-valued quantities are
modelled as rationals.  The numpy mean of an empty array is `NaN`; the
`sparsity` field is therefore modelled as `Option ℚ`, with `none` standing
for `NaN` and `some r` for the finite value `r`.
-/

namespace SAEService

/-- `self.feature_dimension = 16384` -/
def feature_dimension : Nat := 16384

/-- `self.vocabulary_size = 50257` -/
def vocabulary_size : Nat := 50257

/-- The fixed `descriptions` table in `_get_feature_description`. -/
def descriptions : List String :=
  [ "Emotional expression (positive sentiment)",
    "Geographic locations and place names",
    "Mathematical operations and numbers",
    "Past tense verbs and temporal expressions",
    "Question formation and interrogative patterns",
    "Proper nouns and named entities",
    "Scientific terminology and concepts",
    "Social interaction and relationship terms",
    "Abstract reasoning and logic patterns",
    "Creative and artistic language" ]

/-- `_get_feature_description`: `descriptions[feature_id % len(descriptions)]`. -/
def get_feature_description (feature_id : Nat) : String :=
  descriptions.getD (feature_id % descriptions.length) ""

/-- The fixed `token_sets` table in `_get_top_tokens`. -/
def token_sets : List (List String) :=
  [ ["happy", "joy", "excited", "wonderful", "amazing"],
    ["Paris", "London", "Tokyo", "mountain", "river"],
    ["plus", "minus", "equals", "calculate", "number"],
    ["walked", "went", "happened", "was", "did"],
    ["what", "how", "when", "where", "why"],
    ["John", "Mary", "Smith", "Company", "University"],
    ["molecule", "theory", "experiment", "research", "data"],
    ["friend", "family", "together", "relationship", "team"],
    ["because", "therefore", "if", "then", "logic"],
    ["create", "imagine", "beautiful", "art", "design"] ]

/-- `_get_top_tokens`: `token_sets[feature_id % len(token_sets)]`. -/
def get_top_tokens (feature_id : Nat) : List String :=
  token_sets.getD (feature_id % token_sets.length) []

/-- The fixed `prompt_sets` table in `_get_example_prompts`. -/
def prompt_sets : List (List String) :=
  [ ["I\x27m feeling great today!", "What a wonderful surprise!"],
    ["The capital of France is", "Mountains are tall and"],
    ["2 + 2 equals", "Calculate the sum of"],
    ["Yesterday I walked to", "The event happened when"],
    ["What is the meaning of", "How do you solve"],
    ["Dr. Smith published", "Harvard University announced"],
    ["The molecule consists of", "Scientific research shows"],
    ["My friend and I", "Our team worked together"],
    ["This happens because", "If we assume that"],
    ["Let\x27s create something", "The artist painted a"] ]

/-- `_get_example_prompts`: `prompt_sets[feature_id % len(prompt_sets)]`. -/
def get_example_prompts (feature_id : Nat) : List String :=
  prompt_sets.getD (feature_id % prompt_sets.length) []

/-- The record returned by `get_feature_info` (a JSON object in the code). -/
structure FeatureMetadata where
  feature_id : Nat
  description : String
  activation_frequency : Rat
  top_tokens : List String
  example_prompts : List String
  research_notes : String
  interpretability_score : Rat
deriving Repr, DecidableEq

/-- `get_feature_info(feature_id)`.  The two `np.random.beta` draws
(`activation_frequency` from Beta(2,8), `interpretability_score` from
Beta(6,3)) are passed in as `freqDraw` and `interpDraw`. -/
def get_feature_info (feature_id : Nat) (freqDraw interpDraw : Rat) :
    FeatureMetadata :=
  { feature_id := feature_id
    description := get_feature_description feature_id
    activation_frequency := freqDraw
    top_tokens := get_top_tokens feature_id
    example_prompts := get_example_prompts feature_id
    research_notes :=
      "Feature " ++ toString feature_id ++
        " identified in SAE decomposition research"
    interpretability_score := interpDraw }

/-- The `get_feature` route handler: validates
`feature_id < 0 or feature_id >= sae_engine.feature_dimension` and returns
the 400 error body, otherwise calls `get_feature_info`. -/
def get_feature (feature_id : Int) (freqDraw interpDraw : Rat) :
    Except String FeatureMetadata :=
  if feature_id < 0 ∨ (feature_dimension : Int) ≤ feature_id then
    .error "Invalid feature ID"
  else
    .ok (get_feature_info feature_id.toNat freqDraw interpDraw)

/-! ## Feature search (`search_features` route handler) -/

/-- One result entry of `search_features`: the `get_feature_info` record
augmented in place with a `relevance_score` field. -/
structure RankedFeature where
  info : FeatureMetadata
  relevance_score : Rat
deriving Repr, DecidableEq

/-- The JSON body returned by `search_features`. -/
structure SearchResult where
  query : String
  total_results : Nat
  features : List RankedFeature
deriving Repr, DecidableEq

/-- The random draws consumed by one iteration of the `search_features`
loop: `np.random.randint(0, feature_dimension)`, the two beta draws inside
`get_feature_info`, and the Beta(3,7) relevance draw. -/
structure SearchDraw where
  feature_id : Nat
  freqDraw : Rat
  interpDraw : Rat
  relevance : Rat

/-- The `search_features` route handler.  `limit` is the caller-supplied
integer limit query parameter (default 20), clamped with
`min(·, 100)`; an empty query is rejected; then the loop
`for i in range(limit)` samples `limit` features (zero iterations when the
clamped limit is negative), and the results are sorted by
`relevance_score` descending (`results.sort(key=..., reverse=True)`). -/
def search_features (query : String) (limit : Int) (draws : Nat → SearchDraw) :
    Except String SearchResult :=
  let lim : Int := min limit 100
  if query = "" then .error "Query is required"
  else
    let results : List RankedFeature :=
      (List.range lim.toNat).map fun i =>
        let d := draws i
        { info := get_feature_info d.feature_id d.freqDraw d.interpDraw
          relevance_score := d.relevance }
    let sorted := results.mergeSort fun a b =>
      decide (b.relevance_score ≤ a.relevance_score)
    .ok { query := query, total_results := sorted.length, features := sorted }

/-! ## Text encoding (`encode_text`) -/

/-- One entry of the per-token feature list. -/
structure TokenFeature where
  feature_id : Nat
  activation : Rat
  description : String
  confidence : Rat
deriving Repr, DecidableEq

/-- One entry of the per-token `token_features` sequence of the result. -/
structure TokenEntry where
  token : String
  position : Nat
  features : List TokenFeature
deriving Repr, DecidableEq

/-- The `metadata` block of the encode result. -/
structure EncodeMetadata where
  feature_dimension : Nat
  inference_time_ms : Nat
  sae_version : String
  research_source : String
deriving Repr, DecidableEq

/-- The JSON body returned by `encode_text`.  `sparsity` is
`float(np.mean(activations > 0))`: `none` models the numpy `NaN` (the mean
of an empty matrix), `some r` a finite value. -/
structure EncodingResult where
  text : String
  layer : Int
  model : String
  total_features : Nat
  sparsity : Option Rat
  token_features : List TokenEntry
  metadata : EncodeMetadata
deriving Repr, DecidableEq

/-- Helper for `tokenize`: walks the character list, accumulating the
current (reversed) token in `cur`; whitespace ends the current token, and
empty tokens are never produced. -/
def split_whitespace : List Char → List Char → List String
  | [], cur => if cur.isEmpty then [] else [⟨cur.reverse⟩]
  | c :: cs, cur =>
    if c.isWhitespace then
      (if cur.isEmpty then [] else [⟨cur.reverse⟩]) ++ split_whitespace cs []
    else
      split_whitespace cs (c :: cur)

/-- `text.split()`: the Python no-argument split separates on runs of
whitespace and never yields empty tokens (so an all-whitespace or empty
input yields `[]`). -/
def tokenize (text : String) : List String :=
  split_whitespace text.data []

/-- The sparsity threshold of line 42: entries of the exponential draw
matrix strictly below 0.5 are zeroed (`activations[activations < 0.5] = 0`). -/
def thresholded (x : Rat) : Rat :=
  if x < 1/2 then 0 else x

/-- Row `i` of the thresholded activation matrix
(`np.random.exponential(0.1, (num_tokens, feature_dimension))` followed by
the threshold); `draw i j` is the exponential draw for token `i`,
feature `j`. -/
def activation_row (draw : Nat → Nat → Rat) (i : Nat) : List Rat :=
  (List.range feature_dimension).map fun j => thresholded (draw i j)

/-- `np.where(token_activations > 0)[0]`: the indices of the strictly
positive entries of a row, in increasing order. -/
def active_indices (row : List Rat) : List Nat :=
  (row.enum.filter fun p => decide (0 < p.2)).map Prod.fst

/-- `active_indices[np.argsort(token_activations[active_indices])[::-1]]`:
the active indices sorted by activation strength in descending order. -/
def sorted_indices (row : List Rat) : List Nat :=
  (active_indices row).mergeSort fun j k =>
    decide (row.getD k 0 ≤ row.getD j 0)

/-- The `token_features` list built for one token: the top (at most) 5
sorted active indices, each with its activation value, its description from
`_get_feature_description`, and a fresh Beta(8,2) confidence draw
(`conf j` is the draw attached to feature index `j`). -/
def token_features_for (row : List Rat) (conf : Nat → Rat) : List TokenFeature :=
  ((sorted_indices row).take 5).map fun j =>
    { feature_id := j
      activation := row.getD j 0
      description := get_feature_description j
      confidence := conf j }

/-- The body of the `for i, token in enumerate(tokens)` loop: a token with
no active features contributes nothing (`if len(active_indices) > 0`),
otherwise an entry with the token text, its position `i` and its top
features is appended. -/
def encode_token (draw : Nat → Nat → Rat) (conf : Nat → Nat → Rat)
    (p : Nat × String) : Option TokenEntry :=
  let row := activation_row draw p.1
  if (active_indices row).isEmpty then none
  else some { token := p.2, position := p.1,
              features := token_features_for row (conf p.1) }

/-- `int(np.sum(activations > 0))`: the number of strictly positive entries
of the whole thresholded matrix. -/
def total_active (draw : Nat → Nat → Rat) (n : Nat) : Nat :=
  (((List.range n).map fun i =>
      (activation_row draw i).countP fun x => decide (0 < x))).sum

/-- `encode_text(text, layer)`.  `draw` supplies the exponential matrix
draws, `conf i j` the per-feature confidence draws of token `i`, and
`inferMs` the `np.random.randint(50, 200)` latency draw. -/
def encode_text (text : String) (layer : Int) (draw : Nat → Nat → Rat)
    (conf : Nat → Nat → Rat) (inferMs : Nat) : EncodingResult :=
  let tokens := tokenize text
  let num_tokens := tokens.length
  { text := text
    layer := layer
    model := "claude-3-sonnet-sae"
    total_features := total_active draw num_tokens
    sparsity :=
      if num_tokens * feature_dimension = 0 then none
      else some ((total_active draw num_tokens : Rat) /
                 ((num_tokens * feature_dimension : Nat) : Rat))
    token_features := tokens.enum.filterMap (encode_token draw conf)
    metadata :=
      { feature_dimension := feature_dimension
        inference_time_ms := inferMs
        sae_version := "v2.1"
        research_source := "Anthropic SAE Research 2024" } }

/-! ## Helper lemmas -/

/-- Counting a predicate on the values of `enumFrom` counts it on the list. -/
lemma countP_enumFrom (q : α → Bool) :
    ∀ (l : List α) (k : Nat),
      (l.enumFrom k).countP (fun p => q p.2) = l.countP q := by
  intro l
  induction l with
  | nil => intro k; rfl
  | cons a l ih =>
    intro k
    simp [List.countP_cons, ih]

/-- `np.where` yields as many indices as there are positive entries. -/
lemma length_active_indices (row : List Rat) :
    (active_indices row).length = row.countP fun x => decide (0 < x) := by
  simp only [active_indices, List.length_map]
  rw [← List.countP_eq_length_filter]
  exact countP_enumFrom (fun x => decide (0 < x)) row 0

/-- `argsort` (modelled with `mergeSort`) permutes, hence preserves length. -/
lemma length_sorted_indices (row : List Rat) :
    (sorted_indices row).length = row.countP fun x => decide (0 < x) := by
  rw [sorted_indices, List.length_mergeSort]
  exact length_active_indices row

/-- Counting a decidable predicate as a sum of indicators. -/
lemma countP_eq_sum_map_ite (l : List α) (p : α → Prop) [DecidablePred p] :
    l.countP (fun a => decide (p a)) = (l.map fun a => if p a then 1 else 0).sum := by
  induction l with
  | nil => rfl
  | cons a l ih =>
    by_cases h : p a <;> simp [List.countP_cons, ih, h, Nat.add_comm]

/-- Sum of a function over `List.range` as a `Finset` sum. -/
lemma sum_map_range (f : Nat → Nat) (n : Nat) :
    ((List.range n).map f).sum = ∑ i in Finset.range n, f i := by
  induction n with
  | zero => rfl
  | succ n ih =>
    rw [List.range_succ, List.map_append, List.sum_append,
      Finset.sum_range_succ, ih]
    simp

/-- The `token_features` field of the encode result, unfolded. -/
lemma encode_token_features_eq (text : String) (layer : Int)
    (draw conf : Nat → Nat → Rat) (inferMs : Nat) :
    (encode_text text layer draw conf inferMs).token_features
      = (tokenize text).enum.filterMap (encode_token draw conf) := rfl

/-- The `total_features` field of the encode result, unfolded. -/
lemma encode_total_features_eq (text : String) (layer : Int)
    (draw conf : Nat → Nat → Rat) (inferMs : Nat) :
    (encode_text text layer draw conf inferMs).total_features
      = total_active draw (tokenize text).length := rfl

/-- The positions of the entries emitted by the encode loop over
`enumFrom k tokens` are exactly the indices (counting from `k`) whose
activation row has at least one active feature. -/
lemma filterMap_encode_token_map_position (draw conf : Nat → Nat → Rat) :
    ∀ (ts : List String) (k : Nat),
      ((ts.enumFrom k).filterMap (encode_token draw conf)).map TokenEntry.position
        = (List.range' k ts.length).filter
            fun i => !(active_indices (activation_row draw i)).isEmpty := by
  intro ts
  induction ts with
  | nil => intro k; rfl
  | cons t ts ih =>
    intro k
    rw [List.enumFrom_cons, List.length_cons, List.range'_succ]
    by_cases h : (active_indices (activation_row draw k)).isEmpty
    · simp [List.filterMap_cons, encode_token, h, ih]
    · simp [List.filterMap_cons, encode_token, h, ih]

/-- Across the encode loop, the emitted feature-list lengths sum to at most
the number of active matrix entries of the corresponding rows. -/
lemma sum_features_le (draw conf : Nat → Nat → Rat) :
    ∀ (ts : List String) (k : Nat),
      (((ts.enumFrom k).filterMap (encode_token draw conf)).map
          fun e => e.features.length).sum
        ≤ ((List.range' k ts.length).map fun i =>
            (activation_row draw i).countP fun x => decide (0 < x)).sum := by
  intro ts
  induction ts with
  | nil => intro k; simp
  | cons t ts ih =>
    intro k
    rw [List.enumFrom_cons, List.length_cons, List.range'_succ, List.map_cons,
      List.sum_cons]
    by_cases h : (active_indices (activation_row draw k)).isEmpty
    · simp only [List.filterMap_cons, encode_token, h, if_pos]
      exact le_trans (ih (k + 1)) (Nat.le_add_left _ _)
    · have hlen : (token_features_for (activation_row draw k) (conf k)).length
          ≤ (activation_row draw k).countP fun x => decide (0 < x) := by
        rw [token_features_for, List.length_map, List.length_take,
          length_sorted_indices]
        exact min_le_right _ _
      simp only [List.filterMap_cons, encode_token, h, if_neg,
        Bool.not_eq_true, List.map_cons, List.sum_cons]
      exact Nat.add_le_add hlen (ih (k + 1))

/-! ## Claim theorems -/

/-- C2: for every (non-empty, hence accepted) query and every supplied
integer limit, `search_features` succeeds; if `0 ≤ limit ≤ 100` it returns
exactly `limit` results, if `limit > 100` the effective limit is capped at
100 and exactly 100 results are returned; in both cases the results are
sorted by `relevance_score` in non-increasing order. -/
theorem search_limit_exact_and_sorted (query : String) (limit : Int)
    (draws : Nat → SearchDraw) (hq : query ≠ "") :
    ∃ r, search_features query limit draws = .ok r ∧
      (0 ≤ limit → limit ≤ 100 → (r.features.length : Int) = limit) ∧
      (100 < limit → r.features.length = 100) ∧
      r.features.Pairwise fun a b => b.relevance_score ≤ a.relevance_score := by
  simp only [search_features, if_neg hq]
  refine ⟨_, rfl, ?_, ?_, ?_⟩
  · intro h1 h2
    rw [List.length_mergeSort, List.length_map, List.length_range,
      min_eq_left h2, Int.toNat_of_nonneg h1]
  · intro h
    rw [List.length_mergeSort, List.length_map, List.length_range,
      min_eq_right (le_of_lt h)]
    rfl
  · have hs := @List.sorted_mergeSort RankedFeature
      (fun a b : RankedFeature =>
        decide (b.relevance_score ≤ a.relevance_score))
      (fun a b c hab hbc => by
        simp only [decide_eq_true_eq] at hab hbc ⊢
        exact le_trans hbc hab)
      (fun a b => by
        simp only [Bool.or_eq_true, decide_eq_true_eq]
        exact le_total b.relevance_score a.relevance_score)
      ((List.range (min limit 100).toNat).map fun i =>
        { info := get_feature_info (draws i).feature_id (draws i).freqDraw
            (draws i).interpDraw
          relevance_score := (draws i).relevance })
    exact hs.imp fun h => of_decide_eq_true h

/-- Witness for C2 at `query = "happy"`, `limit = 5`, concrete draws. -/
theorem search_limit_exact_and_sorted_witness :
    ("happy" : String) ≠ "" ∧
    ∃ r, search_features "happy" 5 (fun i => ⟨i, 0, 0, (i : Rat)⟩) = .ok r ∧
      ((0 : Int) ≤ 5 → (5 : Int) ≤ 100 → (r.features.length : Int) = 5) ∧
      ((100 : Int) < 5 → r.features.length = 100) ∧
      r.features.Pairwise fun a b => b.relevance_score ≤ a.relevance_score :=
  ⟨by decide,
    search_limit_exact_and_sorted "happy" 5 (fun i => ⟨i, 0, 0, (i : Rat)⟩)
      (by decide)⟩

/-- C3: metadata records of feature ids in the same residue class mod 10
agree on `description`, `top_tokens` and `example_prompts`, for any random
draws of the two numeric fields. -/
theorem feature_info_residue_class (i j : Nat) (f1 i1 f2 i2 : Rat)
    (h : i % 10 = j % 10) :
    (get_feature_info i f1 i1).description
        = (get_feature_info j f2 i2).description ∧
      (get_feature_info i f1 i1).top_tokens
        = (get_feature_info j f2 i2).top_tokens ∧
      (get_feature_info i f1 i1).example_prompts
        = (get_feature_info j f2 i2).example_prompts := by
  have hd : descriptions.length = 10 := rfl
  have ht : token_sets.length = 10 := rfl
  have hp : prompt_sets.length = 10 := rfl
  refine ⟨?_, ?_, ?_⟩ <;>
    simp [get_feature_info, get_feature_description, get_top_tokens,
      get_example_prompts, hd, ht, hp, h]

/-- Witness for C3 at `i = 3`, `j = 13`, distinct random draws. -/
theorem feature_info_residue_class_witness :
    (3 : Nat) % 10 = 13 % 10 ∧
    ((get_feature_info 3 0 0).description
        = (get_feature_info 13 1 1).description ∧
      (get_feature_info 3 0 0).top_tokens
        = (get_feature_info 13 1 1).top_tokens ∧
      (get_feature_info 3 0 0).example_prompts
        = (get_feature_info 13 1 1).example_prompts) :=
  ⟨by decide, feature_info_residue_class 3 13 0 0 1 1 (by decide)⟩

/-- C5: the `get_feature` handler rejects every feature id outside
`[0, feature_dimension)` with the validation error, never returning a
computed metadata record. -/
theorem feature_lookup_out_of_range (feature_id : Int)
    (freqDraw interpDraw : Rat)
    (h : feature_id < 0 ∨ (feature_dimension : Int) ≤ feature_id) :
    get_feature feature_id freqDraw interpDraw = .error "Invalid feature ID" := by
  rw [get_feature, if_pos h]

/-- Witness for C5 at `feature_id = 16384 = feature_dimension`. -/
theorem feature_lookup_out_of_range_witness :
    ((16384 : Int) < 0 ∨ (feature_dimension : Int) ≤ 16384) ∧
    get_feature 16384 0 0 = .error "Invalid feature ID" :=
  ⟨by decide, feature_lookup_out_of_range 16384 0 0 (by decide)⟩

/-- C7: with the same limit and the same random draws, two searches with
different (non-empty) queries return identical outputs except for the
echoed `query` field. -/
theorem search_query_plays_no_role (q1 q2 : String) (limit : Int)
    (draws : Nat → SearchDraw) (h1 : q1 ≠ "") (h2 : q2 ≠ "") :
    ∃ r1 r2, search_features q1 limit draws = .ok r1 ∧
      search_features q2 limit draws = .ok r2 ∧
      r1.query = q1 ∧ r2.query = q2 ∧
      r1.features = r2.features ∧ r1.total_results = r2.total_results := by
  simp only [search_features, if_neg h1, if_neg h2]
  exact ⟨_, _, rfl, rfl, rfl, rfl, rfl, rfl⟩

/-- Witness for C7 at `q1 = "cats"`, `q2 = "logic"`, `limit = 3`. -/
theorem search_query_plays_no_role_witness :
    ("cats" : String) ≠ "" ∧ ("logic" : String) ≠ "" ∧
    ∃ r1 r2, search_features "cats" 3 (fun i => ⟨i, 0, 0, (i : Rat)⟩) = .ok r1 ∧
      search_features "logic" 3 (fun i => ⟨i, 0, 0, (i : Rat)⟩) = .ok r2 ∧
      r1.query = "cats" ∧ r2.query = "logic" ∧
      r1.features = r2.features ∧ r1.total_results = r2.total_results :=
  ⟨by decide, by decide,
    search_query_plays_no_role "cats" "logic" 3 (fun i => ⟨i, 0, 0, (i : Rat)⟩)
      (by decide) (by decide)⟩

/-- C9: a negative supplied limit is not an error: the clamped limit stays
negative, the sampling loop runs zero times, and the search returns an
empty feature list with `total_results = 0`. -/
theorem search_negative_limit_empty (query : String) (limit : Int)
    (draws : Nat → SearchDraw) (hq : query ≠ "") (hneg : limit < 0) :
    search_features query limit draws
      = .ok { query := query, total_results := 0, features := [] } := by
  have h0 : (min limit 100).toNat = 0 := by
    rw [min_eq_left (by omega : limit ≤ (100 : Int))]
    omega
  simp [search_features, hq, h0]

/-- Witness for C9 at `query = "q"`, `limit = -3`. -/
theorem search_negative_limit_empty_witness :
    ("q" : String) ≠ "" ∧ (-3 : Int) < 0 ∧
    search_features "q" (-3) (fun i => ⟨i, 0, 0, (i : Rat)⟩)
      = .ok { query := "q", total_results := 0, features := [] } :=
  ⟨by decide, by decide,
    search_negative_limit_empty "q" (-3) (fun i => ⟨i, 0, 0, (i : Rat)⟩)
      (by decide) (by decide)⟩

/-- C1 (counterexample to the claim as stated): for the empty input,
`np.mean` of the empty activation matrix is `NaN` (modelled `none`), so
the `sparsity` field is not zero. -/
theorem encode_empty_sparsity_is_nan :
    (encode_text "" 12 (fun _ _ => 0) (fun _ _ => 0) 50).sparsity = none ∧
    (encode_text "" 12 (fun _ _ => 0) (fun _ _ => 0) 50).sparsity ≠ some 0 := by
  decide

/-- C1 (amended): on an input whose whitespace splitting yields zero
tokens, `encode_text` returns (without error) an empty `token_features`
sequence and `total_features = 0`, but `sparsity` is `NaN` (the mean of an
empty matrix, modelled `none`), not zero. -/
theorem encode_no_tokens (text : String) (layer : Int)
    (draw conf : Nat → Nat → Rat) (inferMs : Nat)
    (h : tokenize text = []) :
    (encode_text text layer draw conf inferMs).token_features = [] ∧
      (encode_text text layer draw conf inferMs).total_features = 0 ∧
      (encode_text text layer draw conf inferMs).sparsity = none := by
  refine ⟨?_, ?_, ?_⟩
  · rw [encode_token_features_eq, h]
    rfl
  · rw [encode_total_features_eq, h]
    rfl
  · show (if (tokenize text).length * feature_dimension = 0 then none else _)
      = none
    rw [h]
    rfl

/-- Witness for C1 (amended) at `text = ""` (all-whitespace inputs behave
identically). -/
theorem encode_no_tokens_witness :
    tokenize "" = [] ∧
    ((encode_text "" 12 (fun _ _ => 0) (fun _ _ => 0) 50).token_features = [] ∧
      (encode_text "" 12 (fun _ _ => 0) (fun _ _ => 0) 50).total_features = 0 ∧
      (encode_text "" 12 (fun _ _ => 0) (fun _ _ => 0) 50).sparsity = none) :=
  ⟨rfl, encode_no_tokens "" 12 (fun _ _ => 0) (fun _ _ => 0) 50 rfl⟩

/-- C4: for every input and every random draws, each emitted token entry
carries at most 5 features, with activation strengths in non-increasing
order. -/
theorem encode_top5_descending (text : String) (layer : Int)
    (draw conf : Nat → Nat → Rat) (inferMs : Nat) :
    (encode_text text layer draw conf inferMs).token_features.Forall fun e =>
      e.features.length ≤ 5 ∧
        e.features.Pairwise fun a b => b.activation ≤ a.activation := by
  rw [List.forall_iff_forall_mem]
  intro e he
  rw [encode_token_features_eq] at he
  obtain ⟨p, hp, hep⟩ := List.mem_filterMap.mp he
  by_cases h : (active_indices (activation_row draw p.1)).isEmpty
  · simp [encode_token, h] at hep
  · simp [encode_token, h] at hep
    subst hep
    constructor
    · rw [token_features_for, List.length_map, List.length_take]
      exact min_le_left _ _
    · rw [token_features_for, List.pairwise_map]
      have hs := @List.sorted_mergeSort Nat
        (fun j k : Nat =>
          decide ((activation_row draw p.1).getD k 0
            ≤ (activation_row draw p.1).getD j 0))
        (fun a b c hab hbc => by
          simp only [decide_eq_true_eq] at hab hbc ⊢
          exact le_trans hbc hab)
        (fun a b => by
          simp only [Bool.or_eq_true, decide_eq_true_eq]
          exact le_total _ _)
        (active_indices (activation_row draw p.1))
      have ht : ((sorted_indices (activation_row draw p.1)).take 5).Pairwise
          fun j k : Nat =>
            decide ((activation_row draw p.1).getD k 0
              ≤ (activation_row draw p.1).getD j 0) = true :=
        List.Pairwise.sublist (List.take_sublist 5 _) hs
      refine ht.imp fun {a b} hjk => ?_
      simpa using of_decide_eq_true hjk

/-- C6: `total_features` counts the nonzero entries of the whole
`n × feature_dimension` thresholded matrix, `sparsity` is the fraction of
nonzero entries (`NaN`, i.e. `none`, for an empty matrix), and
consequently `total_features` dominates the number of feature records
actually emitted across all token entries. -/
theorem encode_aggregate_counts (text : String) (layer : Int)
    (draw conf : Nat → Nat → Rat) (inferMs : Nat) :
    (encode_text text layer draw conf inferMs).total_features
        = ∑ i in Finset.range (tokenize text).length,
            ∑ j in Finset.range feature_dimension,
              (if 0 < thresholded (draw i j) then 1 else 0) ∧
      (encode_text text layer draw conf inferMs).sparsity
        = (if (tokenize text).length = 0 then none
           else some
            (((encode_text text layer draw conf inferMs).total_features : Rat) /
              (((tokenize text).length * feature_dimension : Nat) : Rat))) ∧
      ((encode_text text layer draw conf inferMs).token_features.map
          fun e => e.features.length).sum
        ≤ (encode_text text layer draw conf inferMs).total_features := by
  have hrow : ∀ i, (activation_row draw i).countP (fun x => decide (0 < x))
      = ∑ j in Finset.range feature_dimension,
          (if 0 < thresholded (draw i j) then 1 else 0) := by
    intro i
    rw [activation_row, List.countP_map, ← sum_map_range]
    exact countP_eq_sum_map_ite _ fun j => 0 < thresholded (draw i j)
  refine ⟨?_, ?_, ?_⟩
  · rw [encode_total_features_eq, total_active,
      List.map_congr_left fun i _ => hrow i, sum_map_range]
  · have hsp : (encode_text text layer draw conf inferMs).sparsity
        = if (tokenize text).length * feature_dimension = 0 then none
          else some ((total_active draw (tokenize text).length : Rat) /
            (((tokenize text).length * feature_dimension : Nat) : Rat)) := rfl
    rw [hsp, encode_total_features_eq]
    by_cases hn : (tokenize text).length = 0
    · simp [hn]
    · have hmul : (tokenize text).length * feature_dimension ≠ 0 :=
        Nat.mul_ne_zero hn (by decide)
      rw [if_neg hmul, if_neg hn]
  · rw [encode_token_features_eq, encode_total_features_eq, total_active,
      List.range_eq_range']
    exact sum_features_le draw conf (tokenize text) 0

/-- C8: the per-token output sequence has at most as many entries as the
input has whitespace-separated tokens, and the positions of its entries
are exactly the token indices whose activation row has at least one active
feature — tokens with no active features are omitted, not emitted empty. -/
theorem encode_omits_inactive_tokens (text : String) (layer : Int)
    (draw conf : Nat → Nat → Rat) (inferMs : Nat) :
    (encode_text text layer draw conf inferMs).token_features.length
        ≤ (tokenize text).length ∧
      (encode_text text layer draw conf inferMs).token_features.map
          TokenEntry.position
        = (List.range (tokenize text).length).filter
            fun i => !(active_indices (activation_row draw i)).isEmpty := by
  constructor
  · calc ((tokenize text).enum.filterMap (encode_token draw conf)).length
        ≤ (tokenize text).enum.length := List.length_filterMap_le _ _
      _ = (tokenize text).length := List.enum_length
  · rw [encode_token_features_eq, List.range_eq_range']
    exact filterMap_encode_token_map_position draw conf (tokenize text) 0

/-- C10: the emitted entries appear in strictly increasing order of their
`position` field, and the position of each entry indexes its own token in the
full whitespace-split token sequence. -/
theorem encode_positions_strictly_increasing (text : String) (layer : Int)
    (draw conf : Nat → Nat → Rat) (inferMs : Nat) :
    (encode_text text layer draw conf inferMs).token_features.Pairwise
        (fun a b => a.position < b.position) ∧
      (encode_text text layer draw conf inferMs).token_features.Forall
        fun e => (tokenize text)[e.position]? = some e.token := by
  constructor
  · have hmap : (encode_text text layer draw conf inferMs).token_features.map
        TokenEntry.position
          = (List.range (tokenize text).length).filter
              fun i => !(active_indices (activation_row draw i)).isEmpty := by
      rw [encode_token_features_eq, List.range_eq_range']
      exact filterMap_encode_token_map_position draw conf (tokenize text) 0
    have hlt := (List.pairwise_lt_range (tokenize text).length).filter
      fun i => !(active_indices (activation_row draw i)).isEmpty
    rw [← hmap] at hlt
    exact List.pairwise_map.mp hlt
  · rw [List.forall_iff_forall_mem]
    intro e he
    rw [encode_token_features_eq] at he
    obtain ⟨p, hp, hep⟩ := List.mem_filterMap.mp he
    obtain ⟨i, tok⟩ := p
    by_cases h : (active_indices (activation_row draw i)).isEmpty
    · simp [encode_token, h] at hep
    · simp [encode_token, h] at hep
      subst hep
      obtain ⟨hlt, hval⟩ := List.mem_enum hp
      rw [List.getElem?_eq_getElem hlt, ← hval]

end SAEService
